import Mathlib

/-!
Verification of the system-prompt and context-assembly core of the
obsidian-copilot plugin against its natural-language specification.

Each section embeds one source module as pure Lean definitions:

* `Migration` embeds `src/system-prompts/migration.ts`
  (`normalizeLineEndings`, `verifyMigratedContent`,
  `generateUniquePromptName`, `migrateSystemPromptsFromSettings`).
  The external world (vault contents, file read-back) is passed in
  explicitly as a `MigrationWorld` record.
* `Mention` embeds the `Mention` class (`processUrl`,
  `processYoutubeUrl`, `processUrlList`): the network fetches are
  modelled as deterministic functions supplied by a `UrlEnv` record;
  the settled-results array of `Promise.all` is modelled explicitly
  so that completion-order independence can be stated.
* `SyncReg` embeds `src/system-prompts/systemPromptRegister.ts`
  (`handleFileModify`, `handleFileCreation`, `handleFileDeletion`,
  `handleFileRename`) over an explicit cache/settings state.
* `Composer` and `ToolExec` model the system-prompt composer of
  ChatManager and `executeSequentialToolCall`, whose implementations
  are not part of this source tree (only their tests are); they are
  modelled from the specification, as marked on each definition.
-/

/-- `content.replace(/\r\n/g, "\n")` over the character list: each
(non-overlapping, left-to-right) CRLF pair collapses to a single LF. -/
def replaceCrlfWithLf : List Char → List Char
  | '\r' :: '\n' :: rest => '\n' :: replaceCrlfWithLf rest
  | c :: rest => c :: replaceCrlfWithLf rest
  | [] => []

/-- `content.replace(/\r/g, "\n")` over the character list. -/
def replaceCrWithLf (l : List Char) : List Char :=
  l.map fun c => if c = '\r' then '\n' else c

/-- JS `String.prototype.trim` over the character list: strip leading
and trailing whitespace. -/
def trimChars (l : List Char) : List Char :=
  ((l.dropWhile Char.isWhitespace).reverse.dropWhile Char.isWhitespace).reverse

/-- JS `trim`, kernel-computable. -/
def strTrim (s : String) : String :=
  String.mk (trimChars s.data)

namespace Migration

/-- Embeds `normalizeLineEndings` from `migration.ts`:
`content.replace(/\r\n/g, "\n").replace(/\r/g, "\n")`. -/
def normalizeLineEndings (content : String) : String :=
  String.mk (replaceCrWithLf (replaceCrlfWithLf content.data))

/-- The fixed base title used by the migration,
`MIGRATED_PROMPT_NAME` in `migration.ts`. -/
def MIGRATED_PROMPT_NAME : String := "Migrated Custom System Prompt"

/-- Embeds `getPromptFilePath` (mocked in `migration.test.ts` as
`SystemPrompts/<title>.md`; the prompts folder is a setting, so it is a
parameter here). -/
def getPromptFilePath (folder : String) (title : String) : String :=
  folder ++ "/" ++ title ++ ".md"

/-- The candidate title tried at loop counter `k` by
`generateUniquePromptName`: the bare base name first (counter 1), then
`"<base> k"` for `k ≥ 2`. -/
def promptNameCandidate (baseName : String) (k : Nat) : String :=
  if k ≤ 1 then baseName else baseName ++ " " ++ toString k

/-- Embeds the `while` loop of `generateUniquePromptName`: keep
incrementing the counter while the candidate file path exists in the
vault.  The vault is a finite list of paths, so the loop is given fuel;
`generateUniquePromptName` supplies enough fuel below. -/
def genUniqueAux (folder baseName : String) (paths : List String) :
    Nat → Nat → String
  | 0, counter => promptNameCandidate baseName counter
  | fuel + 1, counter =>
    let name := promptNameCandidate baseName counter
    if getPromptFilePath folder name ∈ paths then
      genUniqueAux folder baseName paths fuel (counter + 1)
    else
      name

/-- Embeds `generateUniquePromptName` from `migration.ts`.  A vault
with `n` files can occupy at most `n` candidate paths, so fuel
`paths.length + 1` always reaches a free candidate. -/
def generateUniquePromptName (folder baseName : String)
    (paths : List String) : String :=
  genUniqueAux folder baseName paths (paths.length + 1) 1

/-- Embeds `verifyMigratedContent` from `migration.ts`.  `readBack` is
the result of `parseSystemPromptFile(file)`: `none` models the parse
throwing (caught, returning `false`), `some saved` its `content`
field. -/
def verifyMigratedContent (readBack : Option String)
    (originalContent : String) : Bool :=
  match readBack with
  | none => false
  | some saved =>
    strTrim (normalizeLineEndings saved) == strTrim (normalizeLineEndings originalContent)

/-- The two settings fields touched by the migration. -/
structure Settings where
  userSystemPrompt : String
  defaultSystemPromptTitle : String
  deriving Repr, DecidableEq

/-- The external world the migration runs against:
* `paths` — the vault file paths existing before the migration
  (consulted by `generateUniquePromptName`);
* `fileFoundAfterCreation` — whether `vault.getAbstractFileByPath`
  returns a `TFile` for the freshly created path (a throw inside
  `vault.create` or `ensureFolderExists` is caught by the surrounding
  `try` and has the same net effect on settings as this being false);
* `readBack` — the content `parseSystemPromptFile` reads back during
  verification, `none` when reading back fails (a throw inside
  `ensurePromptFrontmatter` has the same net effect on settings). -/
structure MigrationWorld where
  paths : List String
  fileFoundAfterCreation : Bool
  readBack : Option String
  deriving Repr

/-- Embeds `migrateSystemPromptsFromSettings` from `migration.ts`,
returning the settings after the run.  The skip guard
`!legacyPrompt || legacyPrompt.trim().length === 0` collapses to the
trimmed prompt being empty. -/
def migrateSystemPromptsFromSettings (folder : String) (s : Settings)
    (w : MigrationWorld) : Settings :=
  let legacyPrompt := s.userSystemPrompt
  if legacyPrompt == "" || (strTrim legacyPrompt).length == 0 then
    s
  else
    let promptName := generateUniquePromptName folder MIGRATED_PROMPT_NAME w.paths
    if !w.fileFoundAfterCreation then
      s
    else if !verifyMigratedContent w.readBack legacyPrompt then
      s
    else
      { s with userSystemPrompt := ""
               defaultSystemPromptTitle := promptName }

/-- Helper: the result of `genUniqueAux` is the first free candidate,
counted from the current loop counter. -/
theorem genUniqueAux_eq_first_free (folder baseName : String)
    (paths : List String) :
    ∀ (fuel c n : Nat), n ≤ fuel →
      (∀ k, k < n →
        getPromptFilePath folder (promptNameCandidate baseName (c + k)) ∈ paths) →
      getPromptFilePath folder (promptNameCandidate baseName (c + n)) ∉ paths →
      genUniqueAux folder baseName paths fuel c =
        promptNameCandidate baseName (c + n) := by
  intro fuel
  induction fuel with
  | zero =>
    intro c n hn _ _
    interval_cases n
    simp [genUniqueAux]
  | succ fuel ih =>
    intro c n hn htaken hfree
    by_cases hc : getPromptFilePath folder (promptNameCandidate baseName c) ∈ paths
    · match n, hn with
      | 0, _ => exact absurd (by simpa using hc) (by simpa using hfree)
      | n + 1, hn =>
        have step := ih (c + 1) n (Nat.le_of_succ_le_succ hn)
          (fun k hk => by
            have := htaken (k + 1) (Nat.succ_lt_succ hk)
            simpa [Nat.add_assoc, Nat.add_comm 1 k] using this)
          (by simpa [Nat.add_assoc, Nat.add_comm 1 n] using hfree)
        simpa [genUniqueAux, hc, Nat.add_assoc, Nat.add_comm 1 n] using step
    · have hn0 : n = 0 := by
        by_contra h0
        exact hc (by simpa using htaken 0 (Nat.pos_of_ne_zero h0))
      subst hn0
      simp [genUniqueAux, hc]

end Migration

namespace Migration

/-- Claim C7: `generateUniquePromptName` returns the first candidate in
the sequence "Migrated Custom System Prompt", "Migrated Custom System
Prompt 2", "Migrated Custom System Prompt 3", … whose prompt file path
is not already taken in the store: if the first `n` candidates are all
taken and candidate `n + 1` is free (`n` cannot exceed the number of
files), the migration uses candidate `n + 1`. -/
theorem migration_title_first_free (folder : String) (paths : List String)
    (n : Nat) (hbound : n ≤ paths.length)
    (htaken : ∀ k, k < n →
      getPromptFilePath folder (promptNameCandidate MIGRATED_PROMPT_NAME (1 + k)) ∈ paths)
    (hfree : getPromptFilePath folder (promptNameCandidate MIGRATED_PROMPT_NAME (1 + n)) ∉ paths) :
    generateUniquePromptName folder MIGRATED_PROMPT_NAME paths =
      promptNameCandidate MIGRATED_PROMPT_NAME (1 + n) := by
  unfold generateUniquePromptName
  exact genUniqueAux_eq_first_free folder MIGRATED_PROMPT_NAME paths
    (paths.length + 1) 1 n (Nat.le_succ_of_le hbound) htaken hfree

/-- Witness for C7: when exactly the unsuffixed file already exists, the
second migration run picks the title "Migrated Custom System Prompt 2". -/
theorem migration_title_first_free_witness :
    (1 ≤ (["SystemPrompts/Migrated Custom System Prompt.md"] : List String).length ∧
      (∀ k, k < 1 →
        getPromptFilePath "SystemPrompts"
            (promptNameCandidate MIGRATED_PROMPT_NAME (1 + k)) ∈
          (["SystemPrompts/Migrated Custom System Prompt.md"] : List String)) ∧
      getPromptFilePath "SystemPrompts"
          (promptNameCandidate MIGRATED_PROMPT_NAME (1 + 1)) ∉
        (["SystemPrompts/Migrated Custom System Prompt.md"] : List String)) ∧
    generateUniquePromptName "SystemPrompts" MIGRATED_PROMPT_NAME
        ["SystemPrompts/Migrated Custom System Prompt.md"] =
      "Migrated Custom System Prompt 2" := by
  refine ⟨⟨by decide, by decide, by decide⟩, ?_⟩
  have h := migration_title_first_free "SystemPrompts"
    ["SystemPrompts/Migrated Custom System Prompt.md"] 1
    (by decide) (by decide) (by decide)
  simpa using h

/-- Claim C1: for a legacy prompt that is non-empty after trimming, the
migration clears `userSystemPrompt` and marks the new title as default
exactly when the created file is found again and the content read back,
after line-ending normalization and trimming, equals the
likewise-normalized-and-trimmed original; on a content mismatch, a
read-back failure, or the file being missing after creation, the
settings are left completely unchanged and the legacy prompt stays
non-empty. -/
theorem migration_write_then_verify (folder : String) (s : Settings)
    (w : MigrationWorld) (h : strTrim s.userSystemPrompt ≠ "") :
    ((migrateSystemPromptsFromSettings folder s w).userSystemPrompt = "" ∧
      (migrateSystemPromptsFromSettings folder s w).defaultSystemPromptTitle =
        generateUniquePromptName folder MIGRATED_PROMPT_NAME w.paths
     ↔ w.fileFoundAfterCreation = true ∧ ∃ saved, w.readBack = some saved ∧
        strTrim (normalizeLineEndings saved) =
          strTrim (normalizeLineEndings s.userSystemPrompt)) ∧
    (¬ (w.fileFoundAfterCreation = true ∧ ∃ saved, w.readBack = some saved ∧
        strTrim (normalizeLineEndings saved) =
          strTrim (normalizeLineEndings s.userSystemPrompt)) →
      migrateSystemPromptsFromSettings folder s w = s ∧
      (migrateSystemPromptsFromSettings folder s w).userSystemPrompt ≠ "") := by
  have hne : s.userSystemPrompt ≠ "" := by
    intro h0
    exact h (by simp [h0, strTrim, trimChars])
  have hguard :
      (s.userSystemPrompt == "" || (strTrim s.userSystemPrompt).length == 0) = false := by
    have hlen : (strTrim s.userSystemPrompt).length ≠ 0 := by
      intro h0
      apply h
      cases hst : strTrim s.userSystemPrompt with
      | mk l =>
        rw [hst] at h0
        simp [String.length] at h0
        simp [h0]
    simp [hne, hlen]
  have hverify : ∀ b : Bool,
      (verifyMigratedContent w.readBack s.userSystemPrompt = true ↔
        ∃ saved, w.readBack = some saved ∧
          strTrim (normalizeLineEndings saved) =
            strTrim (normalizeLineEndings s.userSystemPrompt)) := by
    intro _
    cases hr : w.readBack with
    | none => simp [verifyMigratedContent]
    | some saved =>
      simp only [verifyMigratedContent, Option.some.injEq, beq_iff_eq]
      constructor
      · intro hs
        exact ⟨saved, rfl, hs⟩
      · rintro ⟨s', hs', hEq⟩
        cases hs'
        exact hEq
  cases hf : w.fileFoundAfterCreation with
  | false =>
    constructor
    · simp only [migrateSystemPromptsFromSettings, hguard, hf]
      simp [hne]
    · intro _
      simp [migrateSystemPromptsFromSettings, hguard, hf, hne]
  | true =>
    cases hv : verifyMigratedContent w.readBack s.userSystemPrompt with
    | false =>
      have hnoex := (hverify true).not.mp (by simp [hv])
      constructor
      · simp only [migrateSystemPromptsFromSettings, hguard, hf, hv]
        simp [hne, hnoex]
      · intro _
        simp [migrateSystemPromptsFromSettings, hguard, hf, hv, hne]
    | true =>
      have hex := (hverify true).mp hv
      constructor
      · simp only [migrateSystemPromptsFromSettings, hguard, hf, hv]
        simp [hex]
      · intro hcon
        exact absurd ⟨rfl, hex⟩ hcon

/-- Witness for C1: a concrete successful round-trip clears the legacy
setting, with the created title becoming the default. -/
theorem migration_write_then_verify_witness :
    strTrim "Be concise." ≠ "" ∧
    (((migrateSystemPromptsFromSettings "SystemPrompts"
          ⟨"Be concise.", "old default"⟩
          ⟨[], true, some "Be concise.\r\n"⟩).userSystemPrompt = "" ∧
      (migrateSystemPromptsFromSettings "SystemPrompts"
          ⟨"Be concise.", "old default"⟩
          ⟨[], true, some "Be concise.\r\n"⟩).defaultSystemPromptTitle =
        generateUniquePromptName "SystemPrompts" MIGRATED_PROMPT_NAME []
     ↔ (true : Bool) = true ∧ ∃ saved, (some "Be concise.\r\n" : Option String) = some saved ∧
        strTrim (normalizeLineEndings saved) =
          strTrim (normalizeLineEndings "Be concise.")) ∧
    (¬ ((true : Bool) = true ∧ ∃ saved, (some "Be concise.\r\n" : Option String) = some saved ∧
        strTrim (normalizeLineEndings saved) =
          strTrim (normalizeLineEndings "Be concise.")) →
      migrateSystemPromptsFromSettings "SystemPrompts"
          ⟨"Be concise.", "old default"⟩ ⟨[], true, some "Be concise.\r\n"⟩ =
        ⟨"Be concise.", "old default"⟩ ∧
      (migrateSystemPromptsFromSettings "SystemPrompts"
          ⟨"Be concise.", "old default"⟩
          ⟨[], true, some "Be concise.\r\n"⟩).userSystemPrompt ≠ "")) :=
  ⟨by decide,
    migration_write_then_verify "SystemPrompts" ⟨"Be concise.", "old default"⟩
      ⟨[], true, some "Be concise.\r\n"⟩ (by decide)⟩

end Migration

namespace Mention

/-- Mirrors the `MentionData` interface: `type`, `original`,
optional `processed`, optional `error`. -/
structure MentionData where
  type : String
  original : String
  processed : Option String
  error : Option String
  deriving Repr, DecidableEq

/-- The external collaborators used by the URL enrichment, as
deterministic functions of the URL:
* `isImage` — `ImageProcessor.isImageUrl`;
* `isYoutube` — `isYoutubeUrl`;
* `fetchYoutube` — the transcript fetch inside `processYoutubeUrl`
  (`.error msg` models `YoutubeTranscript.fetchTranscript` throwing,
  `.ok t` the joined transcript text);
* `fetchUrl` — the request/extract/markdown pipeline inside
  `processUrl` (`.error msg` models any step throwing, `.ok md` the
  produced markdown). -/
structure UrlEnv where
  isImage : String → Bool
  isYoutube : String → Bool
  fetchYoutube : String → Except String String
  fetchUrl : String → Except String String

/-- Result shape of `Mention.processUrl`: `{response, error?}`
(the `elapsed_time_ms` field is dropped as pure timing metadata). -/
structure UrlFetchOutcome where
  response : String
  error : Option String
  deriving Repr, DecidableEq

/-- Embeds `Mention.processUrl`: on success the markdown is returned;
on any error the method catches, logs, and returns the *URL itself* as
the `response` together with the error string (it never throws). -/
def processUrl (env : UrlEnv) (url : String) : UrlFetchOutcome :=
  match env.fetchUrl url with
  | .ok markdown => ⟨markdown, none⟩
  | .error msg => ⟨url, some msg⟩

/-- Result shape of `Mention.processYoutubeUrl`: `{transcript, error?}`. -/
structure YoutubeFetchOutcome where
  transcript : String
  error : Option String
  deriving Repr, DecidableEq

/-- Embeds `Mention.processYoutubeUrl`: on error it catches, logs, and
returns an empty transcript plus the error string (it never throws). -/
def processYoutubeUrl (env : UrlEnv) (url : String) : YoutubeFetchOutcome :=
  match env.fetchYoutube url with
  | .ok transcript => ⟨transcript, none⟩
  | .error msg => ⟨"", some msg⟩

/-- What one async closure of `processUrlList`'s `urls.map(...)`
produces for its URL: either an image marker (the URL was pushed to
`imageUrls`) or the `MentionData` stored in / read back from
`this.mentions`.  Because the fetches are deterministic functions of
the URL, the value read back from the mentions cache equals the value
computed for the URL regardless of how the concurrent tasks
interleave. -/
inductive UrlTaskResult where
  | image (url : String)
  | tagged (data : MentionData)
  deriving Repr, DecidableEq

/-- Embeds the per-URL async closure of `processUrlList`. -/
def runUrlTask (env : UrlEnv) (url : String) : UrlTaskResult :=
  if env.isImage url then
    .image url
  else if env.isYoutube url then
    let p := processYoutubeUrl env url
    .tagged ⟨"youtube", url, some p.transcript, p.error⟩
  else
    let p := processUrl env url
    .tagged ⟨"url", url, some p.response, p.error⟩

/-- JS truthiness of `urlData.processed`: `undefined` and the empty
string are falsy. -/
def truthyOpt (o : Option String) : Bool :=
  match o with
  | none => false
  | some s => s != ""

/-- The `<youtube_transcript>` block appended for a YouTube mention. -/
def youtubeBlock (d : MentionData) : String :=
  "\n\n<youtube_transcript>\n<url>" ++ d.original ++ "</url>\n<transcript>\n" ++
    d.processed.getD "" ++ "\n</transcript>\n</youtube_transcript>"

/-- The `<url_content>` block appended for a regular URL mention. -/
def urlContentBlock (d : MentionData) : String :=
  "\n\n<url_content>\n<url>" ++ d.original ++ "</url>\n<content>\n" ++
    d.processed.getD "" ++ "\n</content>\n</url_content>"

/-- Embeds one step of the `processedUrls.forEach` loop: append the
tagged block when `urlData.processed` is truthy, and record
`processedErrorUrls[urlData.original] = urlData.error` when an error is
present (the record is modelled as the list of key/value insertions in
loop order). -/
def appendResult (acc : String × List (String × String)) (r : UrlTaskResult) :
    String × List (String × String) :=
  match r with
  | .image _ => acc
  | .tagged d =>
    let ctx :=
      if truthyOpt d.processed then
        acc.1 ++ (if d.type == "youtube" then youtubeBlock d else urlContentBlock d)
      else
        acc.1
    let errs :=
      match d.error with
      | some e => acc.2 ++ [(d.original, e)]
      | none => acc.2
    (ctx, errs)

/-- Return value of `processUrlList`. -/
structure UrlListOutput where
  urlContext : String
  imageUrls : List String
  processedErrorUrls : List (String × String)
  deriving Repr, DecidableEq

/-- Extracts the URL from an image task result. -/
def imageOf (r : UrlTaskResult) : Option String :=
  match r with
  | .image u => some u
  | .tagged _ => none

/-- Models the settled-results array of
`Promise.all(processPromises)`: each task stores its result at its own
input index, in the order `order` in which the tasks complete; unfilled
slots stay `none`. -/
def settleAll (tasks : List UrlTaskResult) (order : List Nat) :
    List (Option UrlTaskResult) :=
  order.foldl (fun arr i => arr.set i tasks[i]?)
    (List.replicate tasks.length none)

/-- Embeds `Mention.processUrlList`, with the completion order of the
concurrent per-URL tasks made explicit: `order` lists the input indices
in the order the tasks finish.  `imageUrls` is pushed to while tasks
run, hence in completion order; the `forEach` over the joined array
then builds `urlContext` and `processedErrorUrls`. -/
def processUrlListCompleting (env : UrlEnv) (urls : List String)
    (order : List Nat) : UrlListOutput :=
  if urls.length = 0 then ⟨"", [], []⟩
  else
    let tasks := urls.map (runUrlTask env)
    let settled := settleAll tasks order
    let folded := settled.reduceOption.foldl appendResult ("", [])
    ⟨folded.1, (order.filterMap (fun i => tasks[i]?)).filterMap imageOf, folded.2⟩

/-- Embeds `Mention.processUrlList` with tasks completing in input
order (the completion order cannot be observed in the output text, as
proved below). -/
def processUrlList (env : UrlEnv) (urls : List String) : UrlListOutput :=
  if urls.length = 0 then ⟨"", [], []⟩
  else
    let tasks := urls.map (runUrlTask env)
    let folded := tasks.foldl appendResult ("", [])
    ⟨folded.1, tasks.filterMap imageOf, folded.2⟩

/-- The content block a single URL contributes to `urlContext`
(empty when nothing is appended for it). -/
def blockOfResult (r : UrlTaskResult) : String :=
  match r with
  | .image _ => ""
  | .tagged d =>
    if truthyOpt d.processed then
      if d.type == "youtube" then youtubeBlock d else urlContentBlock d
    else
      ""

/-- The error-map insertion a single URL contributes. -/
def errOfResult (r : UrlTaskResult) : Option (String × String) :=
  match r with
  | .image _ => none
  | .tagged d => d.error.map fun e => (d.original, e)

/-- The block contributed by one URL, as a function of that URL only. -/
def blockOfUrl (env : UrlEnv) (url : String) : String :=
  blockOfResult (runUrlTask env url)

/-- The error entry contributed by one URL, as a function of that URL
only. -/
def errOfUrl (env : UrlEnv) (url : String) : Option (String × String) :=
  errOfResult (runUrlTask env url)

/-- Plain concatenation of a list of text blocks, in list order. -/
def concatBlocks : List String → String
  | [] => ""
  | b :: rest => b ++ concatBlocks rest

end Mention

namespace Mention

/-- Helper: the `forEach` fold appends, to whatever has been
accumulated, exactly one block and at most one error entry per task
result, in list order. -/
theorem foldl_appendResult (rs : List UrlTaskResult) :
    ∀ acc : String × List (String × String),
      (rs.foldl appendResult acc).1 =
        acc.1 ++ concatBlocks (rs.map blockOfResult) ∧
      (rs.foldl appendResult acc).2 = acc.2 ++ rs.filterMap errOfResult := by
  induction rs with
  | nil => intro acc; simp [concatBlocks]
  | cons r rs ih =>
    intro acc
    have hstep₁ : (appendResult acc r).1 = acc.1 ++ blockOfResult r := by
      cases r with
      | image u => simp [appendResult, blockOfResult]
      | tagged d =>
        by_cases hp : truthyOpt d.processed = true
        · simp [appendResult, blockOfResult, hp]
        · simp only [Bool.not_eq_true] at hp
          simp [appendResult, blockOfResult, hp]
    have hstep₂ : (appendResult acc r).2 = acc.2 ++ (errOfResult r).toList := by
      cases r with
      | image u => simp [appendResult, errOfResult]
      | tagged d =>
        cases he : d.error with
        | none => simp [appendResult, errOfResult, he]
        | some e => simp [appendResult, errOfResult, he]
    constructor
    · rw [List.foldl_cons, (ih _).1, hstep₁, List.map_cons]
      rw [concatBlocks, String.append_assoc]
    · rw [List.foldl_cons, (ih _).2, hstep₂]
      cases he : errOfResult r with
      | none => simp [List.filterMap_cons, he]
      | some p => simp [List.filterMap_cons, he]

/-- Helper: the settled array built by repeatedly storing task `i`'s
result at slot `i` holds, at every slot touched by the completion
order, that task's own result — whatever the completion order. -/
theorem settle_foldl_getElem? (tasks : List UrlTaskResult) :
    ∀ (order : List Nat) (init : List (Option UrlTaskResult)) (j : Nat),
      (order.foldl (fun arr i => arr.set i tasks[i]?) init)[j]? =
        if j ∈ order ∧ j < init.length then some tasks[j]? else init[j]? := by
  intro order
  induction order with
  | nil => intro init j; simp
  | cons i rest ih =>
    intro init j
    rw [List.foldl_cons, ih, List.length_set]
    by_cases hjl : j < init.length
    · by_cases hjr : j ∈ rest
      · simp [hjr, hjl, List.mem_cons]
      · by_cases hij : i = j
        · subst hij
          simp [hjr, hjl, List.mem_cons, List.getElem?_set]
        · simp [hjr, hjl, List.mem_cons, List.getElem?_set_ne hij, Ne.symm hij]
    · have hj1 : ¬(j ∈ rest ∧ j < init.length) := fun h => hjl h.2
      have hj2 : ¬(j ∈ i :: rest ∧ j < init.length) := fun h => hjl h.2
      rw [if_neg hj1, if_neg hj2,
        List.getElem?_eq_none (Nat.le_of_not_lt hjl),
        List.getElem?_eq_none
          (by rw [List.length_set]; exact Nat.le_of_not_lt hjl)]

/-- Helper: when every task index completes exactly once in some
order, the settled array is the input-ordered list of all task
results. -/
theorem settleAll_complete (tasks : List UrlTaskResult) (order : List Nat)
    (hmem : ∀ j, j ∈ order ↔ j < tasks.length) :
    settleAll tasks order = tasks.map some := by
  apply List.ext_getElem?
  intro j
  rw [settleAll, settle_foldl_getElem?, List.length_replicate]
  by_cases hj : j < tasks.length
  · rw [if_pos ⟨(hmem j).mpr hj, hj⟩, List.getElem?_map,
      List.getElem?_eq_getElem hj]
    rfl
  · rw [if_neg (by exact fun h => hj h.2), List.getElem?_replicate,
      if_neg hj, List.getElem?_map, List.getElem?_eq_none (Nat.le_of_not_lt hj)]
    rfl

/-- Helper: collapsing an all-`some` settled array recovers the task
results in input order. -/
theorem reduceOption_map_some (tasks : List UrlTaskResult) :
    (tasks.map some).reduceOption = tasks := by
  induction tasks with
  | nil => rfl
  | cons t ts ih => simp [List.reduceOption_cons_of_some, ih]

end Mention

namespace Mention

/-- Claim C3: the per-URL enrichment tasks are all launched, settled
into a slot-per-input-index array, and joined before the final text is
composed; the composed `urlContext` (and the per-reference error map)
is the same for every completion order of the concurrent fetches, and
equals the concatenation of the per-URL content blocks in the order
the URLs occur in the input list. -/
theorem processUrlList_completion_order_irrelevant (env : UrlEnv)
    (urls : List String) (order : List Nat)
    (hperm : order.Perm (List.range urls.length)) :
    (processUrlListCompleting env urls order).urlContext =
      (processUrlList env urls).urlContext ∧
    (processUrlListCompleting env urls order).processedErrorUrls =
      (processUrlList env urls).processedErrorUrls ∧
    (processUrlList env urls).urlContext =
      concatBlocks (urls.map (blockOfUrl env)) := by
  have hmem : ∀ j, j ∈ order ↔ j < (urls.map (runUrlTask env)).length := by
    intro j
    rw [hperm.mem_iff, List.mem_range, List.length_map]
  have hsettle :
      (settleAll (urls.map (runUrlTask env)) order).reduceOption =
        urls.map (runUrlTask env) := by
    rw [settleAll_complete _ _ hmem, reduceOption_map_some]
  by_cases h0 : urls.length = 0
  · refine ⟨?_, ?_, ?_⟩ <;>
      simp [processUrlListCompleting, processUrlList, h0,
        List.length_eq_zero.mp h0, concatBlocks]
  · refine ⟨?_, ?_, ?_⟩
    · simp only [processUrlListCompleting, processUrlList, if_neg h0]
      rw [hsettle]
    · simp only [processUrlListCompleting, processUrlList, if_neg h0]
      rw [hsettle]
    · simp only [processUrlList, if_neg h0]
      rw [(foldl_appendResult _ _).1, String.empty_append, List.map_map]
      rfl

/-- A concrete enrichment environment: one URL whose fetch fails with
"network down", the others succeed. -/
def demoEnv : UrlEnv where
  isImage u := u == "https://img.example/pic.png"
  isYoutube u := u == "https://youtu.be/demo" || u == "https://yt.fail"
  fetchYoutube u := if u == "https://yt.fail" then .error "no transcript" else .ok ("T " ++ u)
  fetchUrl u := if u == "https://fail.example" then .error "network down" else .ok ("M " ++ u)

/-- Witness for C3 at a concrete input: two URLs whose fetches complete
in reversed order still compose in input order. -/
theorem processUrlList_completion_order_irrelevant_witness :
    (([1, 0] : List Nat).Perm
      (List.range (["https://a.example", "https://youtu.be/demo"] : List String).length)) ∧
    ((processUrlListCompleting demoEnv ["https://a.example", "https://youtu.be/demo"]
        [1, 0]).urlContext =
      (processUrlList demoEnv ["https://a.example", "https://youtu.be/demo"]).urlContext ∧
     (processUrlListCompleting demoEnv ["https://a.example", "https://youtu.be/demo"]
        [1, 0]).processedErrorUrls =
      (processUrlList demoEnv ["https://a.example", "https://youtu.be/demo"]).processedErrorUrls ∧
     (processUrlList demoEnv ["https://a.example", "https://youtu.be/demo"]).urlContext =
      concatBlocks (["https://a.example", "https://youtu.be/demo"].map (blockOfUrl demoEnv))) :=
  ⟨by decide,
    processUrlList_completion_order_irrelevant demoEnv
      ["https://a.example", "https://youtu.be/demo"] [1, 0] (by decide)⟩

/-- Counterexample to C2 as stated: a regular URL whose enrichment
fails (its error is recorded in `processedErrorUrls`) still contributes
a `<url_content>` block to the processed text — `processUrl` returns
the URL itself as the fallback `response`, which is truthy — so it is
not the case that only successful enrichments contribute content
blocks. -/
theorem processUrlList_failed_url_still_contributes_block :
    (processUrlList demoEnv ["https://fail.example"]).processedErrorUrls =
      [("https://fail.example", "network down")] ∧
    (processUrlList demoEnv ["https://fail.example"]).urlContext =
      "\n\n<url_content>\n<url>https://fail.example</url>\n<content>\nhttps://fail.example\n</content>\n</url_content>" := by
  decide

/-- Claim C2 (amended): a failure while enriching one reference never
aborts the others — each URL's contribution to `urlContext` and to the
error map is a function of that URL alone, concatenated in input
order — and every failing reference is recorded under its URL in
`processedErrorUrls`; however, a content block is contributed exactly
when the stored processed text is non-empty: a failed YouTube
reference (empty transcript) contributes no block, while a failed
regular URL still contributes a `<url_content>` block whose body is
the URL itself, `processUrl`'s fallback response.  The enrichment
functions return the error as data rather than throwing (they are
total functions into result-with-optional-error records). -/
theorem processUrlList_isolates_failures (env : UrlEnv) (urls : List String) :
    (processUrlList env urls).urlContext =
      concatBlocks (urls.map (blockOfUrl env)) ∧
    (processUrlList env urls).processedErrorUrls =
      urls.filterMap (errOfUrl env) ∧
    (∀ url msg, env.isImage url = false → env.isYoutube url = true →
      env.fetchYoutube url = .error msg →
      errOfUrl env url = some (url, msg) ∧ blockOfUrl env url = "") ∧
    (∀ url msg, env.isImage url = false → env.isYoutube url = false →
      env.fetchUrl url = .error msg → url ≠ "" →
      errOfUrl env url = some (url, msg) ∧
        blockOfUrl env url = urlContentBlock ⟨"url", url, some url, some msg⟩) := by
  refine ⟨?_, ?_, ?_, ?_⟩
  · by_cases h0 : urls.length = 0
    · simp [processUrlList, h0, List.length_eq_zero.mp h0, concatBlocks]
    · simp only [processUrlList, if_neg h0]
      rw [(foldl_appendResult _ _).1, String.empty_append, List.map_map]
      rfl
  · by_cases h0 : urls.length = 0
    · simp [processUrlList, h0, List.length_eq_zero.mp h0]
    · simp only [processUrlList, if_neg h0]
      rw [(foldl_appendResult _ _).2, List.filterMap_map]
      rfl
  · intro url msg hni hyt hfail
    constructor
    · simp [errOfUrl, errOfResult, runUrlTask, hni, hyt, processYoutubeUrl, hfail]
    · simp [blockOfUrl, blockOfResult, runUrlTask, hni, hyt, processYoutubeUrl,
        hfail, truthyOpt]
  · intro url msg hni hyt hfail hne
    constructor
    · simp [errOfUrl, errOfResult, runUrlTask, hni, hyt, processUrl, hfail]
    · simp [blockOfUrl, blockOfResult, runUrlTask, hni, hyt, processUrl,
        hfail, truthyOpt, hne]

/-- Witness for the amended C2 at a concrete input: one failing and one
succeeding URL; the failing URL is recorded in the error map and the
succeeding one still contributes, in input order. -/
theorem processUrlList_isolates_failures_witness :
    ((processUrlList demoEnv ["https://fail.example", "https://a.example"]).urlContext =
      concatBlocks
        (["https://fail.example", "https://a.example"].map (blockOfUrl demoEnv)) ∧
     (processUrlList demoEnv ["https://fail.example", "https://a.example"]).processedErrorUrls =
      ["https://fail.example", "https://a.example"].filterMap (errOfUrl demoEnv)) ∧
    (demoEnv.isImage "https://yt.fail" = false ∧
     demoEnv.isYoutube "https://yt.fail" = true ∧
     errOfUrl demoEnv "https://yt.fail" = some ("https://yt.fail", "no transcript") ∧
     blockOfUrl demoEnv "https://yt.fail" = "") := by
  have h := processUrlList_isolates_failures demoEnv
    ["https://fail.example", "https://a.example"]
  have hyt := (processUrlList_isolates_failures demoEnv
    ["https://fail.example", "https://a.example"]).2.2.1 "https://yt.fail"
    "no transcript" (by decide) (by decide) (by rfl)
  exact ⟨⟨h.1, h.2.1⟩, by decide, by decide, hyt.1, hyt.2⟩

end Mention

/-- `t.data` is a suffix of `s.data`, i.e. JS `s.endsWith(t)`,
kernel-computable. -/
def strEndsWith (s t : String) : Bool :=
  t.data.isSuffixOf s.data

/-- `t.data` leads `s.data`, i.e. JS `s.startsWith(t)`,
kernel-computable. -/
def strStartsWith (s t : String) : Bool :=
  t.data.isPrefixOf s.data

/-- JS `s.includes(c)` for a single character, kernel-computable. -/
def strContainsChar (s : String) (c : Char) : Bool :=
  s.data.contains c

/-- JS `s.slice(n)`, kernel-computable. -/
def strDrop (s : String) (n : Nat) : String :=
  String.mk (s.data.drop n)

/-- JS `s.slice(0, s.length - n)`, kernel-computable. -/
def strDropRight (s : String) (n : Nat) : String :=
  String.mk (s.data.take (s.data.length - n))

/-- JS `s.length` (code points; identical to UTF-16 units for the
ASCII paths handled here), kernel-computable. -/
def strLen (s : String) : Nat :=
  s.data.length

/-- The last `/`-separated component of a path. -/
def lastComponent (s : String) : String :=
  String.mk (s.data.foldl (fun acc c => if c = '/' then [] else acc ++ [c]) [])

namespace SyncReg

/-- The fields of a cached `UserSystemPrompt` relevant here. -/
structure PromptRecord where
  title : String
  content : String
  deriving Repr, DecidableEq

/-- The shared mutable state the sync handlers touch: the prompt cache
(title-keyed) and the `defaultSystemPromptTitle` setting. -/
structure SyncState where
  cache : List (String × PromptRecord)
  defaultSystemPromptTitle : String
  deriving Repr, DecidableEq

/-- Modelled from the spec: `upsertCachedSystemPrompt` (from
`system-prompts/state.ts`, not part of this source tree) — replace or
insert the cache entry keyed by the record's title. -/
def upsertCachedSystemPrompt (st : SyncState) (rec : PromptRecord) : SyncState :=
  { st with cache := st.cache.filter (fun p => p.1 != rec.title) ++ [(rec.title, rec)] }

/-- Modelled from the spec: `deleteCachedSystemPrompt` (from
`system-prompts/state.ts`, not part of this source tree) — drop the
cache entry keyed by the title. -/
def deleteCachedSystemPrompt (st : SyncState) (title : String) : SyncState :=
  { st with cache := st.cache.filter (fun p => p.1 != title) }

/-- Modelled from the spec: `isSystemPromptFile` (from
`systemPromptUtils.ts`, not part of this source tree).  The spec
classifies a prompt file as one whose path lies directly under the
prompts root, ends with the recognized extension `.md`, and is not
nested in a subfolder; the rename handler in
`systemPromptRegister.ts` spells exactly this check out inline for the
old path. -/
def isSystemPromptFile (folder path : String) : Bool :=
  let rel := if strStartsWith path (folder ++ "/") then strDrop path (strLen folder + 1) else ""
  rel != "" && !(strContainsChar rel '/') && strEndsWith path ".md"

/-- `TAbstractFile.basename`: the last path component without its
`.md` extension.  This also matches the rename handler's
`oldPath.split("/").pop()?.replace(/\.md$/i, "")` on every path the
handlers accept (which always ends in lowercase `.md`). -/
def fileBasename (path : String) : String :=
  let name := lastComponent path
  if strEndsWith name ".md" then strDropRight name 3 else name

/-- Embeds `handleFileModify` from `systemPromptRegister.ts` (the
debounce delays the body but does not change it).  `pending` is the
set of paths carrying a pending-write marker (`isPendingFileWrite`);
`parse` is `parseSystemPromptFile`, `none` modelling a caught throw. -/
def handleFileModify (folder : String) (pending : List String)
    (parse : String → Option PromptRecord) (path : String)
    (st : SyncState) : SyncState :=
  if !isSystemPromptFile folder path || pending.contains path then
    st
  else
    match parse path with
    | some prompt => upsertCachedSystemPrompt st prompt
    | none => st

/-- Embeds `handleFileCreation` from `systemPromptRegister.ts`.
The handler parses, rewrites frontmatter, re-parses, and upserts the
re-parsed record; `parse` returns that final record (`none` when any
of these steps throws, in which case nothing is upserted). -/
def handleFileCreation (folder : String) (pending : List String)
    (parse : String → Option PromptRecord) (path : String)
    (st : SyncState) : SyncState :=
  if !isSystemPromptFile folder path || pending.contains path then
    st
  else
    match parse path with
    | some updatedPrompt => upsertCachedSystemPrompt st updatedPrompt
    | none => st

/-- Embeds `handleFileDeletion` from `systemPromptRegister.ts`: drop
the cache entry keyed by the file's basename, then clear
`defaultSystemPromptTitle` when it pointed at that basename. -/
def handleFileDeletion (folder : String) (pending : List String)
    (path : String) (st : SyncState) : SyncState :=
  if !isSystemPromptFile folder path || pending.contains path then
    st
  else
    let st1 := deleteCachedSystemPrompt st (fileBasename path)
    if st.defaultSystemPromptTitle == fileBasename path then
      { st1 with defaultSystemPromptTitle := "" }
    else
      st1

/-- Embeds `handleFileRename` from `systemPromptRegister.ts`.  The old
path's prompt-location check is spelled inline exactly as in the
source (it coincides with `isSystemPromptFile`); `parse` is the final
`parseSystemPromptFile` of the new file (`none` when a step throws:
the old-side mutations already performed are kept, the upsert is
skipped). -/
def handleFileRename (folder : String) (pending : List String)
    (parse : String → Option PromptRecord) (newPath oldPath : String)
    (st : SyncState) : SyncState :=
  if pending.contains newPath || pending.contains oldPath then
    st
  else
    -- the source computes `oldRelativePath` and `wasValidPromptFile`
    -- inline; the inline check is character-for-character the body of
    -- `isSystemPromptFile` applied to the old path
    let wasValidPromptFile := isSystemPromptFile folder oldPath
    let isNewPromptFile := isSystemPromptFile folder newPath
    if !wasValidPromptFile && !isNewPromptFile then
      st
    else
      let st1 :=
        if wasValidPromptFile then
          let oldFilename := fileBasename oldPath
          if oldFilename != "" then
            let st' := deleteCachedSystemPrompt st oldFilename
            if st.defaultSystemPromptTitle == oldFilename then
              if isNewPromptFile then
                { st' with defaultSystemPromptTitle := fileBasename newPath }
              else
                { st' with defaultSystemPromptTitle := "" }
            else
              st'
          else
            st
        else
          st
      if isNewPromptFile then
        match parse newPath with
        | some updatedPrompt => upsertCachedSystemPrompt st1 updatedPrompt
        | none => st1
      else
        st1

end SyncReg

namespace SyncReg

/-- Claim C9: a create, modify, or delete notification whose path is
pending (own-write suppression) or whose file is not classified as a
prompt file leaves the prompt cache and the default-prompt setting
exactly unchanged. -/
theorem sync_handlers_guarded_frame (folder : String) (pending : List String)
    (parse : String → Option PromptRecord) (path : String) (st : SyncState)
    (h : pending.contains path = true ∨ isSystemPromptFile folder path = false) :
    handleFileModify folder pending parse path st = st ∧
    handleFileCreation folder pending parse path st = st ∧
    handleFileDeletion folder pending path st = st := by
  have hguard : (!isSystemPromptFile folder path || pending.contains path) = true := by
    rcases h with h | h
    · rw [h, Bool.or_true]
    · rw [h, Bool.not_false, Bool.true_or]
  refine ⟨?_, ?_, ?_⟩
  · unfold handleFileModify
    rw [hguard]
    simp
  · unfold handleFileCreation
    rw [hguard]
    simp
  · unfold handleFileDeletion
    rw [hguard]
    simp

/-- Witness for C9: a pending (self-written) path inside the prompts
root is ignored by all three handlers. -/
theorem sync_handlers_guarded_frame_witness :
    ((["SystemPrompts/A.md"] : List String).contains "SystemPrompts/A.md" = true ∨
      isSystemPromptFile "SystemPrompts" "SystemPrompts/A.md" = false) ∧
    (handleFileModify "SystemPrompts" ["SystemPrompts/A.md"]
        (fun _ => some ⟨"A", "new"⟩) "SystemPrompts/A.md"
        ⟨[("A", ⟨"A", "old"⟩)], "A"⟩ =
      ⟨[("A", ⟨"A", "old"⟩)], "A"⟩ ∧
     handleFileCreation "SystemPrompts" ["SystemPrompts/A.md"]
        (fun _ => some ⟨"A", "new"⟩) "SystemPrompts/A.md"
        ⟨[("A", ⟨"A", "old"⟩)], "A"⟩ =
      ⟨[("A", ⟨"A", "old"⟩)], "A"⟩ ∧
     handleFileDeletion "SystemPrompts" ["SystemPrompts/A.md"]
        "SystemPrompts/A.md" ⟨[("A", ⟨"A", "old"⟩)], "A"⟩ =
      ⟨[("A", ⟨"A", "old"⟩)], "A"⟩) :=
  ⟨Or.inl (by decide),
    sync_handlers_guarded_frame "SystemPrompts" ["SystemPrompts/A.md"]
      (fun _ => some ⟨"A", "new"⟩) "SystemPrompts/A.md"
      ⟨[("A", ⟨"A", "old"⟩)], "A"⟩ (Or.inl (by decide))⟩

/-- Claim C10: an unsuppressed deletion of a classified prompt file
removes the cache entry keyed by the file's basename and, in addition,
clears `defaultSystemPromptTitle` to the empty string exactly when it
equalled that basename. -/
theorem handleFileDeletion_clears_default (folder : String)
    (pending : List String) (path : String) (st : SyncState)
    (hclass : isSystemPromptFile folder path = true)
    (hpend : pending.contains path = false) :
    handleFileDeletion folder pending path st =
      { cache := st.cache.filter (fun p => p.1 != fileBasename path),
        defaultSystemPromptTitle :=
          if st.defaultSystemPromptTitle = fileBasename path then ""
          else st.defaultSystemPromptTitle } := by
  have hpend' : path ∉ pending := by simpa using hpend
  by_cases hd : st.defaultSystemPromptTitle = fileBasename path
  · simp [handleFileDeletion, hclass, hpend', deleteCachedSystemPrompt, hd]
  · simp [handleFileDeletion, hclass, hpend', deleteCachedSystemPrompt, hd]

/-- Witness for C10: deleting the file backing the current default
prompt drops its cache entry and clears the default setting. -/
theorem handleFileDeletion_clears_default_witness :
    (isSystemPromptFile "SystemPrompts" "SystemPrompts/A.md" = true ∧
      ([] : List String).contains "SystemPrompts/A.md" = false) ∧
    handleFileDeletion "SystemPrompts" [] "SystemPrompts/A.md"
        ⟨[("A", ⟨"A", "old"⟩), ("B", ⟨"B", "keep"⟩)], "A"⟩ =
      { cache := [("A", ⟨"A", "old"⟩), ("B", ⟨"B", "keep"⟩)].filter
          (fun p => p.1 != fileBasename "SystemPrompts/A.md"),
        defaultSystemPromptTitle :=
          if ("A" : String) = fileBasename "SystemPrompts/A.md" then ""
          else "A" } :=
  ⟨⟨by decide, by decide⟩,
    handleFileDeletion_clears_default "SystemPrompts" [] "SystemPrompts/A.md"
      ⟨[("A", ⟨"A", "old"⟩), ("B", ⟨"B", "keep"⟩)], "A"⟩ (by decide) (by decide)⟩

/-- Counterexample to C8 as stated: the old path `SystemPrompts/.md`
is a valid prompt location by the handler's own classification (it
lies directly under the prompts root and ends in `.md`), the rename is
not suppressed, and the cache holds an entry under the old title (the
empty basename) — yet the handler's `if (oldFilename)` guard skips the
deletion, so the cache entry for the old title is not deleted. -/
theorem handleFileRename_bare_extension_counterexample :
    isSystemPromptFile "SystemPrompts" "SystemPrompts/.md" = true ∧
    ([] : List String).contains "SystemPrompts/.md" = false ∧
    ([] : List String).contains "other/x.txt" = false ∧
    fileBasename "SystemPrompts/.md" = "" ∧
    handleFileRename "SystemPrompts" [] (fun _ => none) "other/x.txt"
        "SystemPrompts/.md" ⟨[("", ⟨"", "legacy"⟩)], "keep"⟩ =
      ⟨[("", ⟨"", "legacy"⟩)], "keep"⟩ := by
  decide

/-- Claim C8 (amended): for an unsuppressed rename whose old path is a
valid prompt location *with a non-empty basename* (when the filename
is the bare extension `.md` the handler's falsy-name guard skips the
old-side updates), the cache entry for the old title is deleted; when
the default setting equalled the old title it is rewritten to the new
title if the new path is still a valid prompt file, and cleared if the
file moved out; and if the new path is a valid prompt file, the
re-parsed record is additionally upserted (nothing is upserted when
re-parsing fails). -/
theorem handleFileRename_sync (folder : String) (pending : List String)
    (parse : String → Option PromptRecord) (newPath oldPath : String)
    (st : SyncState)
    (hpn : pending.contains newPath = false)
    (hpo : pending.contains oldPath = false)
    (hold : isSystemPromptFile folder oldPath = true)
    (hbase : fileBasename oldPath ≠ "") :
    (isSystemPromptFile folder newPath = false →
      handleFileRename folder pending parse newPath oldPath st =
        { cache := st.cache.filter (fun p => p.1 != fileBasename oldPath),
          defaultSystemPromptTitle :=
            if st.defaultSystemPromptTitle = fileBasename oldPath then ""
            else st.defaultSystemPromptTitle }) ∧
    (∀ rec, isSystemPromptFile folder newPath = true → parse newPath = some rec →
      handleFileRename folder pending parse newPath oldPath st =
        upsertCachedSystemPrompt
          { cache := st.cache.filter (fun p => p.1 != fileBasename oldPath),
            defaultSystemPromptTitle :=
              if st.defaultSystemPromptTitle = fileBasename oldPath
              then fileBasename newPath else st.defaultSystemPromptTitle } rec) ∧
    (isSystemPromptFile folder newPath = true → parse newPath = none →
      handleFileRename folder pending parse newPath oldPath st =
        { cache := st.cache.filter (fun p => p.1 != fileBasename oldPath),
          defaultSystemPromptTitle :=
            if st.defaultSystemPromptTitle = fileBasename oldPath
            then fileBasename newPath else st.defaultSystemPromptTitle }) := by
  have hpn' : newPath ∉ pending := by simpa using hpn
  have hpo' : oldPath ∉ pending := by simpa using hpo
  refine ⟨?_, ?_, ?_⟩
  · intro hnew
    by_cases hd : st.defaultSystemPromptTitle = fileBasename oldPath
    · simp [handleFileRename, hpn', hpo', hold, hnew, hbase, hd,
        deleteCachedSystemPrompt]
    · simp [handleFileRename, hpn', hpo', hold, hnew, hbase, hd,
        deleteCachedSystemPrompt]
  · intro rec hnew hparse
    by_cases hd : st.defaultSystemPromptTitle = fileBasename oldPath
    · simp [handleFileRename, hpn', hpo', hold, hnew, hparse, hbase, hd,
        deleteCachedSystemPrompt]
    · simp [handleFileRename, hpn', hpo', hold, hnew, hparse, hbase, hd,
        deleteCachedSystemPrompt]
  · intro hnew hparse
    by_cases hd : st.defaultSystemPromptTitle = fileBasename oldPath
    · simp [handleFileRename, hpn', hpo', hold, hnew, hparse, hbase, hd,
        deleteCachedSystemPrompt]
    · simp [handleFileRename, hpn', hpo', hold, hnew, hparse, hbase, hd,
        deleteCachedSystemPrompt]

/-- Witness for the amended C8: renaming `Alpha.md` to `Beta.md`
inside the prompts root, with the default pointing at `Alpha`, drops
the `Alpha` entry, rewrites the default to `Beta`, and upserts the
re-parsed `Beta` record. -/
theorem handleFileRename_sync_witness :
    (([] : List String).contains "SystemPrompts/Beta.md" = false ∧
     ([] : List String).contains "SystemPrompts/Alpha.md" = false ∧
     isSystemPromptFile "SystemPrompts" "SystemPrompts/Alpha.md" = true ∧
     fileBasename "SystemPrompts/Alpha.md" ≠ "" ∧
     isSystemPromptFile "SystemPrompts" "SystemPrompts/Beta.md" = true) ∧
    handleFileRename "SystemPrompts" [] (fun _ => some ⟨"Beta", "body"⟩)
        "SystemPrompts/Beta.md" "SystemPrompts/Alpha.md"
        ⟨[("Alpha", ⟨"Alpha", "body"⟩)], "Alpha"⟩ =
      upsertCachedSystemPrompt
        { cache := [("Alpha", (⟨"Alpha", "body"⟩ : PromptRecord))].filter
            (fun p => p.1 != fileBasename "SystemPrompts/Alpha.md"),
          defaultSystemPromptTitle :=
            if ("Alpha" : String) = fileBasename "SystemPrompts/Alpha.md"
            then fileBasename "SystemPrompts/Beta.md" else "Alpha" }
        ⟨"Beta", "body"⟩ :=
  ⟨⟨by decide, by decide, by decide, by decide, by decide⟩,
    (handleFileRename_sync "SystemPrompts" [] (fun _ => some ⟨"Beta", "body"⟩)
      "SystemPrompts/Beta.md" "SystemPrompts/Alpha.md"
      ⟨[("Alpha", ⟨"Alpha", "body"⟩)], "Alpha"⟩
      (by decide) (by decide) (by decide) (by decide)).2.1
      ⟨"Beta", "body"⟩ (by decide) rfl⟩

end SyncReg

namespace ToolExec

/-- A tool call request `{name, args}`; the surrounding `Option` in
`executeSequentialToolCall` models a malformed (null / nameless) call
object. -/
structure ToolCall where
  name : String
  args : String
  deriving Repr, DecidableEq

/-- A registered tool: its name and its handler; `.error` models the
handler throwing (the executor catches it). -/
structure SimpleTool where
  name : String
  handler : String → Except String String

/-- The `ToolResult` shape `{toolName, result, success}`. -/
structure ToolResult where
  toolName : String
  result : String
  success : Bool
  deriving Repr, DecidableEq

/-- Modelled from the spec: `executeSequentialToolCall` (from
`toolExecution.ts`, not part of this source tree; its unit tests here
pin the exact failure messages).  It looks the tool up by name; when
absent it returns a failed `ToolResult` naming the missing tool and
listing the available tools; for a malformed call object lacking a
name it returns a fixed invalid-tool-call result; a handler throw is
caught and converted into a failed `ToolResult`.  It is a total
function — no branch throws. -/
def executeSequentialToolCall (call : Option ToolCall)
    (tools : List SimpleTool) : ToolResult :=
  match call with
  | none => ⟨"unknown", "Error: Invalid tool call - missing tool name", false⟩
  | some c =>
    match tools.find? (fun t => t.name == c.name) with
    | none =>
      ⟨c.name,
        "Error: Tool \x27" ++ c.name ++ "\x27 not found. Available tools: " ++
          String.intercalate ", " (tools.map SimpleTool.name) ++
          ". Make sure you have the tool enabled in the Agent settings.",
        false⟩
    | some tool =>
      match tool.handler c.args with
      | .ok r => ⟨c.name, r, true⟩
      | .error e => ⟨c.name, e, false⟩

/-- Claim C6: a tool call whose name is not registered yields a failed
`ToolResult` whose message names the missing tool and lists the
available tools, and a malformed (nameless) call yields the fixed
invalid-tool-call failure — in both cases without throwing (the
executor is a total function). -/
theorem executeSequentialToolCall_unknown_tool (call : ToolCall)
    (tools : List SimpleTool)
    (habsent : call.name ∉ tools.map SimpleTool.name) :
    executeSequentialToolCall (some call) tools =
      ⟨call.name,
        "Error: Tool \x27" ++ call.name ++ "\x27 not found. Available tools: " ++
          String.intercalate ", " (tools.map SimpleTool.name) ++
          ". Make sure you have the tool enabled in the Agent settings.",
        false⟩ ∧
    (executeSequentialToolCall (some call) tools).success = false ∧
    executeSequentialToolCall none tools =
      ⟨"unknown", "Error: Invalid tool call - missing tool name", false⟩ := by
  have hfind : tools.find? (fun t => t.name == call.name) = none := by
    rw [List.find?_eq_none]
    intro t ht hbeq
    exact habsent (List.mem_map.mpr ⟨t, ht, by simpa using hbeq⟩)
  refine ⟨?_, ?_, rfl⟩
  · simp [executeSequentialToolCall, hfind]
  · simp [executeSequentialToolCall, hfind]

/-- Witness for C6: calling the unregistered tool "unknownTool" with
an empty registry produces exactly the failure message from the
source's unit test, and a nameless call the fixed invalid-call
result. -/
theorem executeSequentialToolCall_unknown_tool_witness :
    ("unknownTool" ∉ ([] : List SimpleTool).map SimpleTool.name) ∧
    (executeSequentialToolCall (some ⟨"unknownTool", ""⟩) [] =
      ⟨"unknownTool",
        "Error: Tool \x27unknownTool\x27 not found. Available tools: " ++
          String.intercalate ", " (([] : List SimpleTool).map SimpleTool.name) ++
          ". Make sure you have the tool enabled in the Agent settings.",
        false⟩ ∧
     (executeSequentialToolCall (some ⟨"unknownTool", ""⟩) []).success = false ∧
     executeSequentialToolCall none [] =
      ⟨"unknown", "Error: Invalid tool call - missing tool name", false⟩) :=
  ⟨by simp,
    executeSequentialToolCall_unknown_tool ⟨"unknownTool", ""⟩ [] (by simp)⟩

end ToolExec

/-- JS `trimEnd`, kernel-computable: strip trailing whitespace only. -/
def strTrimEnd (s : String) : String :=
  String.mk ((s.data.reverse.dropWhile Char.isWhitespace).reverse)

/-- The opening brace character (written via its code point to keep
string literals brace-free). -/
def openBrace : Char := Char.ofNat 123

/-- The closing brace character. -/
def closeBrace : Char := Char.ofNat 125

/-- Appending any text in front keeps the original as a suffix. -/
theorem strEndsWith_append_self (a b : String) :
    strEndsWith (a ++ b) b = true := by
  rw [strEndsWith, String.data_append, List.isSuffixOf_iff_suffix]
  exact List.suffix_append a.data b.data

/-- Dropping the length of the appended suffix recovers the front. -/
theorem strDropRight_append_self (a b : String) :
    strDropRight (a ++ b) (strLen b) = a := by
  rw [strDropRight, strLen, String.data_append, List.length_append,
    Nat.add_sub_cancel, List.take_left]

namespace Composer

/-- Modelled from the spec: `getSystemPrompt` from `settings/model.ts`
(not part of this source tree; its unit tests here pin the exact
layering) — the builtin layer alone when no user layer exists, the
user layer alone when the builtin layer is disabled, otherwise the
user layer wrapped in a `<user_custom_instructions>` block after the
builtin. -/
def getSystemPrompt (builtinDisabled : Bool) (builtin userPrompt : String) :
    String :=
  if builtinDisabled then
    userPrompt
  else if userPrompt == "" then
    builtin
  else
    builtin ++ "\n<user_custom_instructions>\n" ++ userPrompt ++
      "\n</user_custom_instructions>"

/-- What the composer hands onward: the final instruction text and
whether the template engine (`processPrompt`) was invoked. -/
structure ComposeOutcome where
  prompt : String
  engineInvoked : Bool
  deriving Repr, DecidableEq

/-- Modelled from the spec: the system-prompt template-processing step
of `ChatManager.sendMessage` (not part of this source tree; its unit
tests here pin the behavior).  Substitution runs only when templating
is enabled, a user layer exists, and the layer text contains brace
characters; the engine output (or, when the engine throws, the raw
layer as fallback) is `trimEnd()`-ed and spliced into the boundary
where the raw user layer sat inside the builtin+user composite
`basePrompt`; when the memory-decorated composite does not end with
`basePrompt`, the composer returns the memory-decorated composite
unmodified instead of throwing. -/
def composeSystemPrompt (builtinDisabled templatingEnabled : Bool)
    (builtin userPrompt basePromptWithMemory : String)
    (engine : String → Except String String) : ComposeOutcome :=
  let basePrompt := getSystemPrompt builtinDisabled builtin userPrompt
  if templatingEnabled && userPrompt != "" &&
      strContainsChar userPrompt openBrace &&
      strContainsChar userPrompt closeBrace then
    let processedUser :=
      match engine userPrompt with
      | .ok p => p
      | .error _ => userPrompt
    let newUserLayer := strTrimEnd processedUser
    let newBase :=
      if builtinDisabled then
        newUserLayer
      else
        builtin ++ "\n<user_custom_instructions>\n" ++ newUserLayer ++
          "\n</user_custom_instructions>"
    if strEndsWith basePromptWithMemory basePrompt then
      ⟨strDropRight basePromptWithMemory (strLen basePrompt) ++ newBase, true⟩
    else
      ⟨basePromptWithMemory, true⟩
  else
    ⟨basePromptWithMemory, false⟩

end Composer

namespace Composer

/-- Claim C4: a user custom prompt layer with no brace characters at
all never reaches the template engine — the engine is not invoked and
the memory-decorated composite passes through untouched, so the
layer's text, trailing whitespace included, appears unchanged in the
composed system prompt; trailing whitespace is trimmed only on a layer
that was actually substituted (where the engine output is
`trimEnd()`-ed before splicing). -/
theorem composer_skips_braceless_layer (builtinDisabled templatingEnabled : Bool)
    (builtin userPrompt memoryPart : String)
    (engine : String → Except String String) :
    (strContainsChar userPrompt openBrace = false →
      strContainsChar userPrompt closeBrace = false →
      ∀ basePromptWithMemory,
        composeSystemPrompt builtinDisabled templatingEnabled builtin userPrompt
          basePromptWithMemory engine = ⟨basePromptWithMemory, false⟩) ∧
    (strContainsChar userPrompt openBrace = false →
      strContainsChar userPrompt closeBrace = false →
      userPrompt ≠ "" →
      composeSystemPrompt false templatingEnabled builtin userPrompt
          (memoryPart ++ getSystemPrompt false builtin userPrompt) engine =
        ⟨memoryPart ++ (builtin ++ "\n<user_custom_instructions>\n" ++ userPrompt ++
          "\n</user_custom_instructions>"), false⟩) ∧
    (userPrompt ≠ "" →
      strContainsChar userPrompt openBrace = true →
      strContainsChar userPrompt closeBrace = true →
      ∀ processed, engine userPrompt = .ok processed →
        composeSystemPrompt false true builtin userPrompt
            (memoryPart ++ getSystemPrompt false builtin userPrompt) engine =
          ⟨memoryPart ++ (builtin ++ "\n<user_custom_instructions>\n" ++
            strTrimEnd processed ++ "\n</user_custom_instructions>"), true⟩) := by
  refine ⟨?_, ?_, ?_⟩
  · intro hb1 _ basePromptWithMemory
    simp [composeSystemPrompt, hb1]
  · intro hb1 _ hne
    simp [composeSystemPrompt, hb1, getSystemPrompt, hne]
  · intro hne hb1 hb2 processed hok
    simp only [composeSystemPrompt, getSystemPrompt, Bool.if_false_left,
      if_neg (by simpa using hne)]
    simp [hne, hb1, hb2, hok, strEndsWith_append_self, strDropRight_append_self]

/-- Witness for C4: a brace-free layer with trailing spaces survives
verbatim with the engine never invoked, while a braced layer is
substituted and its engine output trimmed. -/
theorem composer_skips_braceless_layer_witness :
    (strContainsChar "Simple prompt without templates    " openBrace = false ∧
     strContainsChar "Simple prompt without templates    " closeBrace = false ∧
     ("Simple prompt without templates    " : String) ≠ "") ∧
    composeSystemPrompt false true "DEFAULT" "Simple prompt without templates    "
        ("MEM\n\n" ++ getSystemPrompt false "DEFAULT" "Simple prompt without templates    ")
        (fun _ => Except.ok "IGNORED") =
      ⟨"MEM\n\n" ++ ("DEFAULT" ++ "\n<user_custom_instructions>\n" ++
        "Simple prompt without templates    " ++ "\n</user_custom_instructions>"), false⟩ ∧
    (strContainsChar "Use \x7bactiveNote\x7d" openBrace = true ∧
     strContainsChar "Use \x7bactiveNote\x7d" closeBrace = true) ∧
    composeSystemPrompt false true "DEFAULT" "Use \x7bactiveNote\x7d"
        ("MEM\n\n" ++ getSystemPrompt false "DEFAULT" "Use \x7bactiveNote\x7d")
        (fun _ => Except.ok "Processed body   ") =
      ⟨"MEM\n\n" ++ ("DEFAULT" ++ "\n<user_custom_instructions>\n" ++
        strTrimEnd "Processed body   " ++ "\n</user_custom_instructions>"), true⟩ :=
  ⟨⟨by decide, by decide, by decide⟩,
    (composer_skips_braceless_layer false true "DEFAULT"
      "Simple prompt without templates    " "MEM\n\n"
      (fun _ => Except.ok "IGNORED")).2.1 (by decide) (by decide) (by decide),
    ⟨by decide, by decide⟩,
    (composer_skips_braceless_layer false true "DEFAULT"
      "Use \x7bactiveNote\x7d" "MEM\n\n"
      (fun _ => Except.ok "Processed body   ")).2.2 (by decide) (by decide)
      (by decide) "Processed body   " rfl⟩

/-- Claim C5: when the substituted user layer is to be spliced back
but the memory-decorated composite does not end with the expected
builtin+user boundary text, the composer does not throw (it is a total
function) and hands onward the original memory-decorated composite,
completely unmodified. -/
theorem composer_endswith_mismatch_fallback (builtinDisabled : Bool)
    (builtin userPrompt basePromptWithMemory : String)
    (engine : String → Except String String)
    (hne : userPrompt ≠ "")
    (hb1 : strContainsChar userPrompt openBrace = true)
    (hb2 : strContainsChar userPrompt closeBrace = true)
    (hmis : strEndsWith basePromptWithMemory
      (getSystemPrompt builtinDisabled builtin userPrompt) = false) :
    composeSystemPrompt builtinDisabled true builtin userPrompt
      basePromptWithMemory engine = ⟨basePromptWithMemory, true⟩ := by
  simp [composeSystemPrompt, hne, hb1, hb2, hmis]

/-- Witness for C5, mirroring the source's unit test: the base prompt
diverges from the memory-decorated text, and the original
memory-decorated composite is returned unchanged. -/
theorem composer_endswith_mismatch_fallback_witness :
    (("Use \x7bactiveNote\x7d" : String) ≠ "" ∧
     strContainsChar "Use \x7bactiveNote\x7d" openBrace = true ∧
     strContainsChar "Use \x7bactiveNote\x7d" closeBrace = true ∧
     strEndsWith "Memory\n\nACTUAL_SYSTEM_PROMPT_THAT_DOES_NOT_MATCH"
       (getSystemPrompt false "DIFFERENT_SYSTEM_PROMPT" "Use \x7bactiveNote\x7d") = false) ∧
    composeSystemPrompt false true "DIFFERENT_SYSTEM_PROMPT" "Use \x7bactiveNote\x7d"
        "Memory\n\nACTUAL_SYSTEM_PROMPT_THAT_DOES_NOT_MATCH"
        (fun _ => Except.ok "PROCESSED") =
      ⟨"Memory\n\nACTUAL_SYSTEM_PROMPT_THAT_DOES_NOT_MATCH", true⟩ :=
  ⟨⟨by decide, by decide, by decide, by decide⟩,
    composer_endswith_mismatch_fallback false "DIFFERENT_SYSTEM_PROMPT"
      "Use \x7bactiveNote\x7d" "Memory\n\nACTUAL_SYSTEM_PROMPT_THAT_DOES_NOT_MATCH"
      (fun _ => Except.ok "PROCESSED")
      (by decide) (by decide) (by decide) (by decide)⟩

end Composer
